import Mathlib

/-
Verification of the Stock-Analyser data pipeline.

The repository has two near-identical entry points, src/app.py (dashboard)
and src/stock_analyser.py (script).  Both implement the same pipeline:

  fetch_stock_data      -- classify the provider response body
  clean_and_feature_engineer
                        -- rename columns, datetime index, sort_index,
                        -- to_numeric with coerce, dropna, rolling SMA
  tail(180)             -- window to the most recent rows

The embedding below models a dataframe as a list of rows.  A cell is
either a provider string that parses as a number, a provider string that
does not, an already-coerced number, or NaN; this mirrors the boundary
where pd.to_numeric with errors set to coerce turns unparseable strings
into NaN.  Dates are abstract keys (Nat); prices are exact rationals,
standing for the floating-point values of the source (the spec fixes the
arithmetic as plain means with no rounding).  In-place dataframe
mutation versus copy-returning operations is modelled with an explicit
aliasing state machine, so frame conditions about the caller's argument
are meaningful.
-/

namespace StockAnalyser

/-- One dataframe cell.  strNum and strNonNum are the raw provider
strings (classified by whether pd.to_numeric can parse them), num is a
coerced numeric value, nan is a missing value. -/
inductive Cell where
  | strNum (q : ℚ)
  | strNonNum
  | num (q : ℚ)
  | nan
  deriving DecidableEq, Repr

/-- Numeric value of a cell, when the cell holds a coerced number. -/
def Cell.toNum? : Cell → Option ℚ
  | .num q => some q
  | _ => none

/-- pd.to_numeric with errors set to coerce: numeric strings become
numbers, anything unparseable becomes NaN. -/
def Cell.coerce : Cell → Cell
  | .strNum q => .num q
  | .strNonNum => .nan
  | .num q => .num q
  | .nan => .nan

/-- Whether pd.to_numeric can parse this cell into a number. -/
def Cell.parses : Cell → Bool
  | .strNum _ => true
  | .num _ => true
  | _ => false

/-- Whether the cell is a missing value. -/
def Cell.isNan : Cell → Bool
  | .nan => true
  | _ => false

/-- One dataframe row: the date index plus the five renamed columns.
The sma field models the derived SMA column: none while the column does
not exist, some v once clean_and_feature_engineer has assigned it
(v itself is none for a NaN SMA entry, the undefined sentinel). -/
structure TRow where
  date : Nat
  Open : Cell
  High : Cell
  Low : Cell
  Close : Cell
  Volume : Cell
  sma : Option (Option ℚ)
  deriving DecidableEq, Repr

/-- A dataframe, as its list of rows in index order. -/
abbrev Table := List TRow

/-- df.rename with the fixed column mapping: relabels the five columns
and returns a fresh dataframe.  Column labels are implicit in the TRow
fields, so on the data this is the identity; what matters for the frame
model is that the result is a fresh object, not an alias. -/
def renameColumns (t : Table) : Table := t

/-- Assignment of pd.to_datetime of the index: dates are already
abstract calendar keys in the model, so the data is unchanged.  In the
source this mutates the dataframe it is applied to, in place. -/
def toDatetimeIndex (t : Table) : Table := t

/-- df.sort_index: rows reordered ascending by date; returns a fresh
dataframe. -/
def sortByDate (t : Table) : Table :=
  List.insertionSort (fun a b => a.date ≤ b.date) t

instance : IsTotal TRow (fun a b => a.date ≤ b.date) :=
  ⟨fun a b => Nat.le_total a.date b.date⟩

instance : IsTrans TRow (fun a b => a.date ≤ b.date) :=
  ⟨fun _ _ _ hab hbc => Nat.le_trans hab hbc⟩

/-- Coercion of the five numeric columns of one row. -/
def coerceRow (r : TRow) : TRow :=
  { r with
    Open := r.Open.coerce, High := r.High.coerce, Low := r.Low.coerce,
    Close := r.Close.coerce, Volume := r.Volume.coerce }

/-- The to_numeric application over the five columns.  In the source
this is an in-place column assignment on the current dataframe. -/
def applyToNumeric (t : Table) : Table := t.map coerceRow

/-- Whether the row has a missing value among the five numeric columns.
At the call site of dropna the SMA column does not yet exist, so dropna
inspects exactly these five columns. -/
def rowHasNan (r : TRow) : Bool :=
  r.Open.isNan || r.High.isNan || r.Low.isNan || r.Close.isNan || r.Volume.isNan

/-- df.dropna: drops every row holding a missing value; fresh result. -/
def dropna (t : Table) : Table := t.filter (fun r => !(rowHasNan r))

/-- Indexed map helper: applies f to each row together with its
position, starting the position count at k. -/
def mapIdxFrom (f : Nat → TRow → TRow) : Nat → Table → Table
  | _, [] => []
  | k, r :: rs => f k r :: mapIdxFrom f (k + 1) rs

/-- The p-wide trailing window ending at position i. -/
def rollingWindow (xs : List (Option ℚ)) (p i : Nat) : List (Option ℚ) :=
  (xs.drop (i + 1 - p)).take p

/-- Series.rolling(window equal to p).mean() at position i: defined only
when a full window of p present values ends at i, as in pandas where a
short window or a NaN inside the window yields NaN. -/
def rollingMeanAt (xs : List (Option ℚ)) (p i : Nat) : Option ℚ :=
  if p ≤ i + 1 ∧ (rollingWindow xs p i).length = p ∧
      (rollingWindow xs p i).all Option.isSome then
    some (((rollingWindow xs p i).filterMap id).sum / (p : ℚ))
  else none

/-- The Close column, as optional numeric values. -/
def closeColumn (t : Table) : List (Option ℚ) :=
  t.map (fun r => r.Close.toNum?)

/-- Assignment of the rolling-mean column: every row receives an SMA
value (possibly the NaN sentinel).  In the source this is an in-place
column assignment on the current dataframe. -/
def addSMAColumn (p : Nat) (t : Table) : Table :=
  mapIdxFrom (fun i r => { r with sma := some (rollingMeanAt (closeColumn t) p i) }) 0 t

/-- Numeric close price at position k (0 when out of range or not
numeric; inside the pipeline the column is numeric and in range). -/
def closeAt (t : Table) (k : Nat) : ℚ :=
  ((closeColumn t)[k]?.getD none).getD 0

/-- Aliasing state of the local variable df inside
clean_and_feature_engineer: arg is the caller's dataframe object,
cur the object the local name is bound to, aliased whether the two are
the same object. -/
structure PyFrameState where
  arg : Table
  aliased : Bool
  cur : Table
  deriving DecidableEq, Repr

/-- Rebinding the local name to a fresh dataframe returned by f:
the local no longer aliases the argument. -/
def rebind (f : Table → Table) (s : PyFrameState) : PyFrameState :=
  { arg := s.arg, aliased := false, cur := f s.cur }

/-- In-place mutation of the object the local name points to: if the
local still aliases the argument, the argument changes too. -/
def mutate (f : Table → Table) (s : PyFrameState) : PyFrameState :=
  match s.aliased with
  | true => { arg := f s.arg, aliased := true, cur := f s.cur }
  | false => { arg := s.arg, aliased := false, cur := f s.cur }

/-- clean_and_feature_engineer (both source files line for line):
rename (copy), to_datetime index assignment (in place), sort_index
(copy), to_numeric column assignment (in place), dropna (copy), SMA
column assignment (in place).  The local starts as an alias of the
caller's dataframe. -/
def clean_and_feature_engineer (df : Table) (p : Nat) : PyFrameState :=
  mutate (addSMAColumn p)
    (rebind dropna
      (mutate applyToNumeric
        (rebind sortByDate
          (mutate toDatetimeIndex
            (rebind renameColumns { arg := df, aliased := true, cur := df })))))

/-- The dataframe returned to the caller. -/
def cleanResult (df : Table) (p : Nat) : Table :=
  (clean_and_feature_engineer df p).cur

/-- The normalization part of the pipeline (spec section 4.2): the steps
of clean_and_feature_engineer before the SMA column is attached. -/
def normalize (t : Table) : Table :=
  dropna (applyToNumeric (sortByDate t))

/-- Whether all five raw fields of the row parse as numbers. -/
def rowParses (r : TRow) : Bool :=
  r.Open.parses && r.High.parses && r.Low.parses && r.Close.parses && r.Volume.parses

/-- Whether all five fields hold coerced numeric values. -/
def rowNumeric (r : TRow) : Bool :=
  r.Open.toNum?.isSome && r.High.toNum?.isSome && r.Low.toNum?.isSome &&
    r.Close.toNum?.isSome && r.Volume.toNum?.isSome

/-- The provider response body after JSON parsing, as the fetcher
inspects it: presence of the two indicator keys and the optional daily
time-series mapping (none when the key is absent; the source treats an
empty mapping like an absent one via a falsiness test). -/
structure ApiBody where
  errorMessage : Bool
  note : Bool
  timeSeries : Option Table
  deriving DecidableEq, Repr

/-- Classification outcome of fetch_stock_data.  In the source every
failure returns None after printing or displaying a distinct message;
the constructor records which message path was taken. -/
inductive FetchResult where
  | providerError
  | rateLimited
  | missingSeries
  | success (t : Table)
  deriving DecidableEq, Repr

/-- fetch_stock_data of src/app.py: the Error Message check returns
first, then the Note check returns, then the falsiness test on the
time-series field. -/
def fetch_stock_data_app (b : ApiBody) : FetchResult :=
  if b.errorMessage then .providerError
  else if b.note then .rateLimited
  else
    match b.timeSeries with
    | none => .missingSeries
    | some ts => if ts.isEmpty then .missingSeries else .success ts

/-- fetch_stock_data of src/stock_analyser.py: the Error Message check
returns, but the Note branch only prints a warning and falls through to
the time-series test, so a throttled body is never classified on its
own. -/
def fetch_stock_data_script (b : ApiBody) : FetchResult :=
  if b.errorMessage then .providerError
  else
    match b.timeSeries with
    | none => .missingSeries
    | some ts => if ts.isEmpty then .missingSeries else .success ts

/-- df.tail(n): the last n rows, or the whole frame when shorter. -/
def tailN {α : Type} (n : Nat) (l : List α) : List α :=
  l.drop (l.length - n)

/-- Outcome of the post-fetch driver code (the fetch_button handler of
src/app.py, mirrored by the main block of src/stock_analyser.py). -/
inductive RunOutcome where
  | summaryShown (latest : TRow)
  | errorShown
  | crashIndexError
  deriving DecidableEq, Repr

/-- The driver after fetch_stock_data returns: on None or an empty raw
frame it shows the failure message; otherwise it cleans, windows to 180
rows, and reads the last row of the window (df_recent.index with
subscript -1), which raises an uncaught IndexError when the window is
empty. -/
def fetchButtonRun (dfRaw : Option Table) (p : Nat) : RunOutcome :=
  match dfRaw with
  | none => .errorShown
  | some raw =>
    if raw.isEmpty then .errorShown
    else
      match (tailN 180 (cleanResult raw p)).getLast? with
      | none => .crashIndexError
      | some r => .summaryShown r

/-- A fully numeric row, used for concrete test tables. -/
def mkNumRow (d : Nat) (c : ℚ) : TRow :=
  { date := d, Open := .num c, High := .num c, Low := .num c,
    Close := .num c, Volume := .num c, sma := none }

/-- A raw provider row with all five fields numeric strings. -/
def mkRawRow (d : Nat) (c : ℚ) : TRow :=
  { date := d, Open := .strNum c, High := .strNum c, Low := .strNum c,
    Close := .strNum c, Volume := .strNum c, sma := none }

/-- A raw provider row whose close field does not parse. -/
def mkBadCloseRow (d : Nat) : TRow :=
  { date := d, Open := .strNum 1, High := .strNum 1, Low := .strNum 1,
    Close := .strNonNum, Volume := .strNum 1, sma := none }

/-- Concrete normalized table with closes 10, 20, 30, 40, 50. -/
def exampleTable5 : Table :=
  [mkNumRow 1 10, mkNumRow 2 20, mkNumRow 3 30, mkNumRow 4 40, mkNumRow 5 50]

/-- Concrete raw table arriving in descending date order. -/
def exampleShuffledRaw : Table :=
  [mkRawRow 3 30, mkRawRow 1 10, mkRawRow 2 20]

/-- Concrete raw table with one row whose close does not parse. -/
def exampleInvalidRaw : Table :=
  [mkRawRow 2 20, mkBadCloseRow 1, mkRawRow 3 7]

/-- Response body carrying only a throttling indicator plus data. -/
def noteBody : ApiBody :=
  { errorMessage := false, note := true, timeSeries := some [mkRawRow 0 1] }

/-- Raw table whose single row is dropped by normalization. -/
def emptySurvivorsRaw : Table := [mkBadCloseRow 0]

lemma cleanResult_eq (df : Table) (p : Nat) :
    cleanResult df p = addSMAColumn p (normalize df) := rfl

lemma clean_arg_eq (df : Table) (p : Nat) :
    (clean_and_feature_engineer df p).arg = df := rfl

lemma mapIdxFrom_getElem? (f : Nat → TRow → TRow) :
    ∀ (t : Table) (k i : Nat), (mapIdxFrom f k t)[i]? = (t[i]?).map (f (k + i))
  | [], _, i => by simp [mapIdxFrom]
  | r :: rs, k, 0 => by simp [mapIdxFrom]
  | r :: rs, k, i + 1 => by
    simpa [mapIdxFrom, Nat.add_right_comm k 1 i] using mapIdxFrom_getElem? f rs (k + 1) i

lemma mapIdxFrom_length (f : Nat → TRow → TRow) :
    ∀ (t : Table) (k : Nat), (mapIdxFrom f k t).length = t.length
  | [], _ => rfl
  | _ :: rs, k => by simp [mapIdxFrom, mapIdxFrom_length f rs (k + 1)]

lemma mapIdxFrom_sma_map_date (g : Nat → Option (Option ℚ)) :
    ∀ (t : Table) (k : Nat),
      (mapIdxFrom (fun i r => { r with sma := g i }) k t).map TRow.date = t.map TRow.date
  | [], _ => rfl
  | _ :: rs, k => by simp [mapIdxFrom, mapIdxFrom_sma_map_date g rs (k + 1)]

lemma addSMAColumn_map_date (p : Nat) (t : Table) :
    (addSMAColumn p t).map TRow.date = t.map TRow.date :=
  mapIdxFrom_sma_map_date _ t 0

lemma addSMAColumn_getElem? (p : Nat) (t : Table) (i : Nat) :
    (addSMAColumn p t)[i]? =
      (t[i]?).map (fun r => { r with sma := some (rollingMeanAt (closeColumn t) p i) }) := by
  simpa using mapIdxFrom_getElem? _ t 0 i

lemma sum_filterMap_allSome :
    ∀ (w : List (Option ℚ)), (∀ x ∈ w, x.isSome = true) →
      (w.filterMap id).sum = ∑ j ∈ Finset.range w.length, (w[j]?.getD none).getD 0
  | [], _ => by simp
  | o :: w, h => by
    obtain ⟨a, rfl⟩ := Option.isSome_iff_exists.mp (h o (by simp))
    have ih := sum_filterMap_allSome w (fun x hx => h x (by simp [hx]))
    simp [List.filterMap_cons, ih, Finset.sum_range_succ', add_comm]

lemma coerce_isNan (c : Cell) : (Cell.coerce c).isNan = !(c.parses) := by
  cases c <;> rfl

lemma coerce_toNum_isSome (c : Cell) (h : (Cell.coerce c).isNan = false) :
    ((Cell.coerce c).toNum?).isSome = true := by
  cases c <;> simp_all [Cell.coerce, Cell.isNan, Cell.toNum?]

lemma rowHasNan_coerceRow (r : TRow) :
    rowHasNan (coerceRow r) = !(rowParses r) := by
  simp [rowHasNan, coerceRow, rowParses, coerce_isNan, Bool.not_and]

lemma sortByDate_perm (t : Table) : (sortByDate t).Perm t :=
  List.perm_insertionSort _ t

lemma sortByDate_sorted (t : Table) :
    List.Pairwise (fun a b : TRow => a.date ≤ b.date) (sortByDate t) :=
  List.sorted_insertionSort _ t

end StockAnalyser

namespace StockAnalyser

/-- Claim C10: clean_and_feature_engineer leaves the caller's dataframe
unchanged: the initial rename returns a fresh frame, so every in-place
step of the function mutates only the fresh object, never the argument,
and the local never aliases the argument again. -/
theorem c10_argument_frame_unchanged (df : Table) (p : Nat) :
    (clean_and_feature_engineer df p).arg = df ∧
    (clean_and_feature_engineer df p).aliased = false :=
  ⟨clean_arg_eq df p, rfl⟩

/-- Claim C8: the normalization-and-feature step is deterministic with
no hidden mutable state: running it again on the dataframe the caller
still holds after a first run produces the identical full result
state. -/
theorem c8_rerun_is_identical (df : Table) (p : Nat) :
    clean_and_feature_engineer ((clean_and_feature_engineer df p).arg) p =
      clean_and_feature_engineer df p := by
  rw [clean_arg_eq]

/-- Claim C6: tail returns exactly the last n rows in original order
(its result is the length-min-n-len suffix of the series), and the whole
series unchanged when the series has fewer than n rows. -/
theorem c6_tail_window (s : Table) (n : Nat) :
    (tailN n s).length = min n s.length ∧
    s.take (s.length - n) ++ tailN n s = s ∧
    (s.length ≤ n → tailN n s = s) := by
  refine ⟨?_, List.take_append_drop _ s, fun h => ?_⟩
  · simp only [tailN, List.length_drop]
    omega
  · simp [tailN, Nat.sub_eq_zero_of_le h]

theorem c6_tail_window_witness :
    (List.replicate 50 (mkRawRow 0 1) : Table).length ≤ 180 ∧
    tailN 180 (List.replicate 50 (mkRawRow 0 1)) = List.replicate 50 (mkRawRow 0 1) :=
  ⟨by simp, (c6_tail_window (List.replicate 50 (mkRawRow 0 1)) 180).2.2 (by simp)⟩

/-- Claim C5 (code bug witness): when the fetch succeeds with a
non-empty raw frame but zero rows survive normalization, the driver does
not produce a distinct typed EmptySeries failure: it passes the raw
non-emptiness guard, then reads the last index of the empty windowed
frame and dies with an uncaught IndexError. -/
theorem c5_empty_series_crashes :
    fetchButtonRun (some emptySurvivorsRaw) 20 = RunOutcome.crashIndexError := by
  decide

/-- Claim C4 (counterexample): in src/stock_analyser.py the Note branch
only prints and falls through, so a body that carries the throttling
indicator together with data is classified as a success, not as the
RateLimited failure the claim requires. -/
theorem c4_note_counterexample :
    noteBody.note = true ∧
    fetch_stock_data_script noteBody ≠ FetchResult.rateLimited ∧
    fetch_stock_data_script noteBody = FetchResult.success [mkRawRow 0 1] := by
  decide

/-- Claim C4 (amended): an Error Message key classifies as ProviderError
in both fetchers; a Note key with no Error Message classifies as
RateLimited in the dashboard fetcher only, while the script fetcher
ignores the Note key entirely, so its result is whatever the remaining
time-series check yields. -/
theorem c4_amended_classification (b : ApiBody) :
    (b.errorMessage = true →
      fetch_stock_data_app b = FetchResult.providerError ∧
      fetch_stock_data_script b = FetchResult.providerError) ∧
    (b.errorMessage = false → b.note = true →
      fetch_stock_data_app b = FetchResult.rateLimited) ∧
    (b.errorMessage = false →
      fetch_stock_data_script b = fetch_stock_data_script { b with note := false }) := by
  obtain ⟨e, n, ts⟩ := b
  refine ⟨fun he => ?_, fun he hn => ?_, fun he => ?_⟩ <;>
    subst_vars <;>
    simp [fetch_stock_data_app, fetch_stock_data_script]

theorem c4_amended_witness :
    fetch_stock_data_app noteBody = FetchResult.rateLimited :=
  (c4_amended_classification noteBody).2.1 rfl rfl

/-- Claim C9: when a body carries both the Error Message and the Note
indicators, the Error Message check runs first and returns, so both
fetchers classify the body as ProviderError and the Note branch is never
reached. -/
theorem c9_error_message_precedence (b : ApiBody)
    (he : b.errorMessage = true) (_hn : b.note = true) :
    fetch_stock_data_app b = FetchResult.providerError ∧
    fetch_stock_data_script b = FetchResult.providerError := by
  simp [fetch_stock_data_app, fetch_stock_data_script, he]

theorem c9_error_message_precedence_witness :
    fetch_stock_data_app { errorMessage := true, note := true, timeSeries := none } =
      FetchResult.providerError :=
  (c9_error_message_precedence
    { errorMessage := true, note := true, timeSeries := none } rfl rfl).1

lemma rollingWindow_length (xs : List (Option ℚ)) (p i : Nat)
    (h1 : p ≤ i + 1) (h2 : i < xs.length) :
    (rollingWindow xs p i).length = p := by
  simp only [rollingWindow, List.length_take, List.length_drop]
  omega

lemma rollingWindow_getElem? (xs : List (Option ℚ)) (p i j : Nat) (hj : j < p) :
    (rollingWindow xs p i)[j]? = xs[i + 1 - p + j]? := by
  rw [rollingWindow, List.getElem?_take, if_pos hj, List.getElem?_drop]

/-- Claim C7: when the period strictly exceeds the series length the
feature engine still succeeds (it is a total function) and every row of
the produced SMA column carries the undefined sentinel. -/
theorem c7_all_values_undefined (t : Table) (p : Nat) (_hp : 1 ≤ p)
    (hlen : t.length < p) :
    ∀ x ∈ (addSMAColumn p t).map TRow.sma, x = some none := by
  intro x hx
  obtain ⟨i, hi⟩ := List.mem_iff_getElem?.mp hx
  rw [List.getElem?_map, addSMAColumn_getElem?] at hi
  cases ht : t[i]? with
  | none => rw [ht] at hi; simp at hi
  | some r =>
    rw [ht] at hi
    have hib : i < t.length := by
      by_contra hc
      rw [List.getElem?_eq_none (Nat.le_of_not_lt hc)] at ht
      exact Option.noConfusion ht
    have hm : rollingMeanAt (closeColumn t) p i = none := by
      rw [rollingMeanAt, if_neg]
      rintro ⟨h1, -⟩
      omega
    simp [hm] at hi
    exact hi.symm

theorem c7_all_values_undefined_witness :
    1 ≤ 10 ∧ exampleTable5.length < 10 ∧
    ∀ x ∈ (addSMAColumn 10 exampleTable5).map TRow.sma, x = some none :=
  ⟨by decide, by decide,
    c7_all_values_undefined exampleTable5 10 (by decide) (by decide)⟩

/-- Claim C1: over a numeric series, the SMA value at 0-indexed position
i is the arithmetic mean of the closes at positions i-period+1 through i
when i+1 is at least the period, and is the present-but-undefined
sentinel otherwise; in particular closes 10, 20, 30, 40, 50 with period
3 yield the column undefined, undefined, 20, 30, 40. -/
theorem c1_sma_boundary (t : Table) (p i : Nat) (_hp : 1 ≤ p)
    (hnum : ∀ r ∈ t, (Cell.toNum? r.Close).isSome = true) (hi : i < t.length) :
    (p ≤ i + 1 →
      ((addSMAColumn p t).map TRow.sma)[i]? =
        some (some (some
          ((∑ j ∈ Finset.range p, closeAt t (i + 1 - p + j)) / (p : ℚ))))) ∧
    (i + 1 < p → ((addSMAColumn p t).map TRow.sma)[i]? = some (some none)) ∧
    (addSMAColumn 3 exampleTable5).map TRow.sma =
      [some none, some none, some (some 20), some (some 30), some (some 40)] := by
  have hget : ((addSMAColumn p t).map TRow.sma)[i]? =
      some (some (rollingMeanAt (closeColumn t) p i)) := by
    rw [List.getElem?_map, addSMAColumn_getElem?, List.getElem?_eq_getElem hi]
    rfl
  refine ⟨fun hple => ?_, fun hlt => ?_, ?_⟩
  · have hwlen : (rollingWindow (closeColumn t) p i).length = p :=
      rollingWindow_length _ p i hple (by simpa [closeColumn] using hi)
    have hall : (rollingWindow (closeColumn t) p i).all Option.isSome = true := by
      rw [List.all_eq_true]
      intro x hxmem
      have hx : x ∈ closeColumn t :=
        List.mem_of_mem_drop (List.mem_of_mem_take hxmem)
      obtain ⟨r, hr, rfl⟩ := List.mem_map.mp hx
      exact hnum r hr
    have hsum : ((rollingWindow (closeColumn t) p i).filterMap id).sum =
        ∑ j ∈ Finset.range p, closeAt t (i + 1 - p + j) := by
      rw [sum_filterMap_allSome _ (List.all_eq_true.mp hall), hwlen]
      refine Finset.sum_congr rfl (fun j hj => ?_)
      rw [rollingWindow_getElem? _ _ _ _ (Finset.mem_range.mp hj)]
      rfl
    rw [hget, rollingMeanAt, if_pos ⟨hple, hwlen, hall⟩, hsum]
  · have hm : rollingMeanAt (closeColumn t) p i = none := by
      rw [rollingMeanAt, if_neg]
      rintro ⟨h1, -⟩
      omega
    rw [hget, hm]
  · norm_num [exampleTable5, addSMAColumn, mapIdxFrom, rollingMeanAt, rollingWindow,
      closeColumn, mkNumRow, Cell.toNum?, List.filterMap]

theorem c1_sma_boundary_witness :
    1 ≤ 3 ∧ (∀ r ∈ exampleTable5, (Cell.toNum? r.Close).isSome = true) ∧
    2 < exampleTable5.length ∧
    ((addSMAColumn 3 exampleTable5).map TRow.sma)[2]? =
      some (some (some
        ((∑ j ∈ Finset.range 3, closeAt exampleTable5 (2 + 1 - 3 + j)) /
          ((3 : Nat) : ℚ)))) :=
  ⟨by decide, by decide, by decide,
    (c1_sma_boundary exampleTable5 3 2 (by decide) (by decide) (by decide)).1
      (by decide)⟩

/-- Claim C2: for a raw mapping (distinct date keys), the cleaned output
has strictly increasing dates, and the pipeline factors as the SMA step
applied after the sorting normalization, so the chronological order is
established before the SMA column is computed. -/
theorem c2_sorted_ascending (raw : Table) (p : Nat)
    (hnd : (raw.map TRow.date).Nodup) :
    List.Pairwise (· < ·) ((cleanResult raw p).map TRow.date) ∧
    cleanResult raw p = addSMAColumn p (normalize raw) := by
  refine ⟨?_, rfl⟩
  rw [cleanResult_eq, addSMAColumn_map_date]
  have hsorted := sortByDate_sorted raw
  have hperm : ((sortByDate raw).map TRow.date).Perm (raw.map TRow.date) :=
    (sortByDate_perm raw).map _
  have hnd2 : ((sortByDate raw).map TRow.date).Nodup := hperm.nodup_iff.mpr hnd
  have hne : List.Pairwise (fun a b : TRow => a.date ≠ b.date) (sortByDate raw) :=
    List.pairwise_map.mp hnd2
  have hlt : List.Pairwise (fun a b : TRow => a.date < b.date) (sortByDate raw) :=
    (hsorted.and hne).imp (fun h => lt_of_le_of_ne h.1 h.2)
  have hfun : TRow.date ∘ coerceRow = TRow.date := funext (fun _ => rfl)
  have h3 : List.Pairwise (· < ·) ((applyToNumeric (sortByDate raw)).map TRow.date) := by
    simp only [applyToNumeric, List.map_map, hfun]
    exact List.pairwise_map.mpr hlt
  simp only [normalize, dropna]
  exact List.Pairwise.sublist ((List.filter_sublist _).map TRow.date) h3

theorem c2_sorted_ascending_witness :
    (exampleShuffledRaw.map TRow.date).Nodup ∧
    List.Pairwise (· < ·) ((cleanResult exampleShuffledRaw 2).map TRow.date) :=
  ⟨by decide, (c2_sorted_ascending exampleShuffledRaw 2 (by decide)).1⟩

/-- Claim C3: normalization drops exactly the rows with an unparseable
field: such a row's date is absent from the output, the output length is
the input length minus the number of invalid rows, and every surviving
row is fully numeric in all five fields. -/
theorem c3_drop_invalid_rows (raw : Table)
    (hnd : (raw.map TRow.date).Nodup) :
    (∀ r ∈ raw, rowParses r = false → r.date ∉ (normalize raw).map TRow.date) ∧
    (normalize raw).length =
      raw.length - (raw.filter (fun r => !(rowParses r))).length ∧
    (∀ r ∈ normalize raw, rowNumeric r = true) := by
  refine ⟨?_, ?_, ?_⟩
  · intro r hr hbad hmem
    obtain ⟨x, hx, hxd⟩ := List.mem_map.mp hmem
    simp only [normalize, dropna, List.mem_filter] at hx
    obtain ⟨hx1, hx2⟩ := hx
    simp only [applyToNumeric] at hx1
    obtain ⟨r', hr', rfl⟩ := List.mem_map.mp hx1
    have hr'raw : r' ∈ raw := (sortByDate_perm raw).mem_iff.mp hr'
    have hparse : rowParses r' = true := by
      rw [rowHasNan_coerceRow] at hx2
      simpa using hx2
    have hd : r'.date = r.date := hxd
    have heq : r' = r := List.inj_on_of_nodup_map hnd hr'raw hr hd
    rw [heq, hbad] at hparse
    exact Bool.noConfusion hparse
  · have hfun : ((fun x => !(rowHasNan x)) ∘ coerceRow) = rowParses :=
      funext (fun r' => by rw [Function.comp_apply, rowHasNan_coerceRow, Bool.not_not])
    have hcount : (normalize raw).length = List.countP rowParses raw := by
      simp only [normalize, dropna, applyToNumeric]
      rw [← List.countP_eq_length_filter, List.countP_map, hfun]
      exact (sortByDate_perm raw).countP_eq _
    have hsplit := List.length_eq_countP_add_countP rowParses raw
    have hfun2 : (fun a : TRow => decide ¬rowParses a = true) =
        (fun r => !(rowParses r)) :=
      funext (fun a => by cases h : rowParses a <;> simp [h])
    rw [hfun2] at hsplit
    rw [hcount, ← List.countP_eq_length_filter]
    omega
  · intro r hrn
    simp only [normalize, dropna, List.mem_filter] at hrn
    obtain ⟨hr1, hr2⟩ := hrn
    simp only [applyToNumeric] at hr1
    obtain ⟨r', -, rfl⟩ := List.mem_map.mp hr1
    have h5 : rowHasNan (coerceRow r') = false := by simpa using hr2
    simp only [rowHasNan, coerceRow, Bool.or_eq_false_iff] at h5
    obtain ⟨⟨⟨⟨h1, h2⟩, h3⟩, h4⟩, h5'⟩ := h5
    simp [rowNumeric, coerceRow, coerce_toNum_isSome _ h1, coerce_toNum_isSome _ h2,
      coerce_toNum_isSome _ h3, coerce_toNum_isSome _ h4, coerce_toNum_isSome _ h5']

theorem c3_drop_invalid_rows_witness :
    (exampleInvalidRaw.map TRow.date).Nodup ∧
    (normalize exampleInvalidRaw).length =
      exampleInvalidRaw.length -
        (exampleInvalidRaw.filter (fun r => !(rowParses r))).length :=
  ⟨by decide, (c3_drop_invalid_rows exampleInvalidRaw (by decide)).2.1⟩

end StockAnalyser
